import Mathlib

/-!
Verification of the pad-compositing code (`graphics/pdcurs34/pdcurses/pdc_pad.c`)
and the shell file helpers (`nshlib/nsh_fsutils.c`).

The C code is shallowly embedded: a `WINDOW` becomes a structure whose cell
grid, per-row damage markers and cursor are explicit fields, the physical
screen `curscr` becomes a second structure, and every C function becomes a
total Lean function on these structures.  Machine integers are modelled as
`Int`/`Nat`; the loops of the C code become structural recursions driven by
an explicit iteration count (for `pnoutrefresh`, whose `while` runs a number
of times computable from its arguments) or by a finite trace of environment
events (for the file helpers, whose loops are driven by `read`/`write`
results supplied by the operating system).
-/

set_option autoImplicit false
set_option linter.unusedVariables false

namespace Pdc

/-- curses success status (`#define OK 0`; `curses.h` is not part of the
excerpt, the value is the standard curses one). -/
def OK : Int := 0

/-- curses failure status (`#define ERR (-1)`). -/
def ERR : Int := -1

/-- Modelled from the spec: the "no change" damage sentinel (`_NO_CHANGE`
from `curspriv.h`, which is not part of the excerpt; the spec calls it the
"no change" sentinel, a value distinct from every valid column index). -/
def NO_CHANGE : Int := -1

/-- Embedding of the `WINDOW` structure as used by `pdc_pad.c`: the cell
grid `_y` is modelled as a total function from (row, column) to cell value,
`_firstch`/`_lastch` as functions from row to column marker, and the
`_flags & _PAD` / `_flags & _SUBPAD` tests as two booleans. -/
structure Window where
  flagsPad : Bool
  flagsSubpad : Bool
  maxy : Int
  maxx : Int
  cury : Int
  curx : Int
  leaveit : Bool
  clear : Bool
  ycells : Int → Int → Int
  firstch : Int → Int
  lastch : Int → Int

/-- Embedding of the physical screen buffer `curscr`. -/
structure ScreenT where
  ycells : Int → Int → Int
  firstch : Int → Int
  lastch : Int → Int
  cury : Int
  curx : Int
  clear : Bool

/-- The body of one iteration of `pnoutrefresh`'s `while (sline <= sy2)`
loop: when `pline < w->_maxy` it copies `num_cols` cells of pad row `pline`
(starting at column `px`) into screen row `sline` (starting at column
`sx1`), merges the screen row's damage range with `[sx1, sx2]` and clears
the pad row's damage range; otherwise it leaves both buffers alone. -/
def prStep (sline pline sx1 sx2 px num_cols : Int) (scr : ScreenT) (w : Window) :
    ScreenT × Window :=
  if pline < w.maxy then
    ({ scr with
        ycells := fun r c =>
          if r = sline ∧ sx1 ≤ c ∧ c < sx1 + num_cols then
            w.ycells pline (px + (c - sx1))
          else scr.ycells r c,
        firstch := fun r =>
          if r = sline ∧ (scr.firstch sline = NO_CHANGE ∨ scr.firstch sline > sx1) then
            sx1
          else scr.firstch r,
        lastch := fun r =>
          if r = sline ∧ sx2 > scr.lastch sline then sx2 else scr.lastch r },
     { w with
        firstch := fun p => if p = pline then NO_CHANGE else w.firstch p,
        lastch := fun p => if p = pline then NO_CHANGE else w.lastch p })
  else (scr, w)

/-- `pnoutrefresh`'s `while (sline <= sy2)` loop, run `n` times (`n` is the
number of iterations of the C loop, computed by the caller); both line
counters advance on every iteration. -/
def prLoop : Nat → Int → Int → Int → Int → Int → Int → ScreenT → Window → ScreenT × Window
  | 0, _, _, _, _, _, _, scr, w => (scr, w)
  | n + 1, sline, pline, sx1, sx2, px, num_cols, scr, w =>
    let step := prStep sline pline sx1 sx2 px num_cols scr w
    prLoop n (sline + 1) (pline + 1) sx1 sx2 px num_cols step.1 step.2

/-- `pnoutrefresh`'s `_clear` propagation (pdc_pad.c:302-306): if the pad
carries a pending full-clear flag, clear it on the pad and set it on the
screen. -/
def pnrClear (p : ScreenT × Window) : ScreenT × Window :=
  if p.2.clear then ({ p.1 with clear := true }, { p.2 with clear := false }) else p

/-- `pnoutrefresh`'s cursor relocation (pdc_pad.c:313-318): when the pad's
cursor falls inside the displayed sub-rectangle (and `_leaveit` is unset),
translate it to screen coordinates. -/
def pnrCursor (py px sy1 sx1 sy2 sx2 : Int) (p : ScreenT × Window) : ScreenT × Window :=
  if ¬p.2.leaveit ∧ p.2.cury ≥ py ∧ p.2.curx ≥ px ∧
      p.2.cury ≤ py + (sy2 - sy1) ∧ p.2.curx ≤ px + (sx2 - sx1) then
    ({ p.1 with cury := (p.2.cury - py) + sy1, curx := (p.2.curx - px) + sx1 }, p.2)
  else p

/-- The part of `pnoutrefresh` that runs after validation succeeds: the copy
loop, the `_clear` flag propagation and the cursor relocation.  `sline` and
`pline` are the loop counters, which the source initializes from `sy1` and
`py` *before* those are clamped; `py px sy1 sx1` here are the clamped
values. -/
def pnrBody (scr : ScreenT) (w : Window) (sline pline py px sy1 sx1 sy2 sx2 : Int) :
    ScreenT × Window :=
  let num_cols := min (sx2 - sx1 + 1) (w.maxx - px)
  pnrCursor py px sy1 sx1 sy2 sx2
    (pnrClear (prLoop (sy2 + 1 - sline).toNat sline pline sx1 sx2 px num_cols scr w))

/-- Embedding of `pnoutrefresh()` (pdc_pad.c:235-321).  `LINES`/`COLS` are
the physical screen dimensions, `curscr` the screen buffer, `wopt` the
window argument (`none` = NULL pointer).  The result carries the returned
status together with the screen and window as the call leaves them; the two
`return ERR` paths of the C code run before any store, so they return the
inputs unchanged.  Note that, as in the source, `sline`/`pline` capture
`sy1`/`py` *before* the negative-coordinate clamping, and the far-corner
validation tests `sy2` against both `LINES` and `COLS`. -/
def pnoutrefresh (LINES COLS : Int) (curscr : ScreenT) (wopt : Option Window)
    (py px sy1 sx1 sy2 sx2 : Int) : Int × ScreenT × Option Window :=
  match wopt with
  | none => (ERR, curscr, none)
  | some w =>
    if ¬(w.flagsPad ∨ w.flagsSubpad) ∨ sy2 ≥ LINES ∨ sy2 ≥ COLS then
      (ERR, curscr, some w)
    else
      let sline := sy1
      let pline := py
      let py := if py < 0 then 0 else py
      let px := if px < 0 then 0 else px
      let sy1 := if sy1 < 0 then 0 else sy1
      let sx1 := if sx1 < 0 then 0 else sx1
      if sy2 < sy1 ∨ sx2 < sx1 then (ERR, curscr, some w)
      else
        let bw := pnrBody curscr w sline pline py px sy1 sx1 sy2 sx2
        (OK, bw.1, some bw.2)


theorem prStep_snd_ycells (sline pline sx1 sx2 px nc : Int) (scr : ScreenT) (w : Window) :
    (prStep sline pline sx1 sx2 px nc scr w).2.ycells = w.ycells := by
  unfold prStep; split <;> rfl

theorem prStep_snd_maxy (sline pline sx1 sx2 px nc : Int) (scr : ScreenT) (w : Window) :
    (prStep sline pline sx1 sx2 px nc scr w).2.maxy = w.maxy := by
  unfold prStep; split <;> rfl

theorem prStep_snd_maxx (sline pline sx1 sx2 px nc : Int) (scr : ScreenT) (w : Window) :
    (prStep sline pline sx1 sx2 px nc scr w).2.maxx = w.maxx := by
  unfold prStep; split <;> rfl

theorem prStep_snd_cury (sline pline sx1 sx2 px nc : Int) (scr : ScreenT) (w : Window) :
    (prStep sline pline sx1 sx2 px nc scr w).2.cury = w.cury := by
  unfold prStep; split <;> rfl

theorem prStep_snd_curx (sline pline sx1 sx2 px nc : Int) (scr : ScreenT) (w : Window) :
    (prStep sline pline sx1 sx2 px nc scr w).2.curx = w.curx := by
  unfold prStep; split <;> rfl

theorem prStep_snd_leaveit (sline pline sx1 sx2 px nc : Int) (scr : ScreenT) (w : Window) :
    (prStep sline pline sx1 sx2 px nc scr w).2.leaveit = w.leaveit := by
  unfold prStep; split <;> rfl

theorem prStep_snd_clear (sline pline sx1 sx2 px nc : Int) (scr : ScreenT) (w : Window) :
    (prStep sline pline sx1 sx2 px nc scr w).2.clear = w.clear := by
  unfold prStep; split <;> rfl

theorem prStep_fst_cury (sline pline sx1 sx2 px nc : Int) (scr : ScreenT) (w : Window) :
    (prStep sline pline sx1 sx2 px nc scr w).1.cury = scr.cury := by
  unfold prStep; split <;> rfl

theorem prStep_fst_curx (sline pline sx1 sx2 px nc : Int) (scr : ScreenT) (w : Window) :
    (prStep sline pline sx1 sx2 px nc scr w).1.curx = scr.curx := by
  unfold prStep; split <;> rfl

theorem prStep_fst_clear (sline pline sx1 sx2 px nc : Int) (scr : ScreenT) (w : Window) :
    (prStep sline pline sx1 sx2 px nc scr w).1.clear = scr.clear := by
  unfold prStep; split <;> rfl

theorem prStep_fst_ycells (sline pline sx1 sx2 px nc : Int) (scr : ScreenT) (w : Window)
    (r c : Int) :
    (prStep sline pline sx1 sx2 px nc scr w).1.ycells r c =
      if pline < w.maxy ∧ r = sline ∧ sx1 ≤ c ∧ c < sx1 + nc then
        w.ycells pline (px + (c - sx1))
      else scr.ycells r c := by
  unfold prStep
  by_cases hp : pline < w.maxy <;> simp [hp]

theorem prStep_fst_firstch (sline pline sx1 sx2 px nc : Int) (scr : ScreenT) (w : Window)
    (r : Int) :
    (prStep sline pline sx1 sx2 px nc scr w).1.firstch r =
      if pline < w.maxy ∧ r = sline ∧
          (scr.firstch sline = NO_CHANGE ∨ scr.firstch sline > sx1) then sx1
      else scr.firstch r := by
  unfold prStep
  by_cases hp : pline < w.maxy <;> simp [hp]

theorem prStep_fst_lastch (sline pline sx1 sx2 px nc : Int) (scr : ScreenT) (w : Window)
    (r : Int) :
    (prStep sline pline sx1 sx2 px nc scr w).1.lastch r =
      if pline < w.maxy ∧ r = sline ∧ sx2 > scr.lastch sline then sx2
      else scr.lastch r := by
  unfold prStep
  by_cases hp : pline < w.maxy <;> simp [hp]

theorem prStep_snd_firstch (sline pline sx1 sx2 px nc : Int) (scr : ScreenT) (w : Window)
    (p : Int) :
    (prStep sline pline sx1 sx2 px nc scr w).2.firstch p =
      if pline < w.maxy ∧ p = pline then NO_CHANGE else w.firstch p := by
  unfold prStep
  by_cases hp : pline < w.maxy <;> simp [hp]

theorem prStep_snd_lastch (sline pline sx1 sx2 px nc : Int) (scr : ScreenT) (w : Window)
    (p : Int) :
    (prStep sline pline sx1 sx2 px nc scr w).2.lastch p =
      if pline < w.maxy ∧ p = pline then NO_CHANGE else w.lastch p := by
  unfold prStep
  by_cases hp : pline < w.maxy <;> simp [hp]


theorem prLoop_snd_ycells (n : Nat) :
    ∀ (sline pline sx1 sx2 px nc : Int) (scr : ScreenT) (w : Window),
    (prLoop n sline pline sx1 sx2 px nc scr w).2.ycells = w.ycells := by
  induction n with
  | zero => intro sline pline sx1 sx2 px nc scr w; rfl
  | succ n ih =>
    intro sline pline sx1 sx2 px nc scr w
    rw [prLoop, ih, prStep_snd_ycells]

theorem prLoop_snd_maxy (n : Nat) :
    ∀ (sline pline sx1 sx2 px nc : Int) (scr : ScreenT) (w : Window),
    (prLoop n sline pline sx1 sx2 px nc scr w).2.maxy = w.maxy := by
  induction n with
  | zero => intro sline pline sx1 sx2 px nc scr w; rfl
  | succ n ih =>
    intro sline pline sx1 sx2 px nc scr w
    rw [prLoop, ih, prStep_snd_maxy]

theorem prLoop_snd_cury (n : Nat) :
    ∀ (sline pline sx1 sx2 px nc : Int) (scr : ScreenT) (w : Window),
    (prLoop n sline pline sx1 sx2 px nc scr w).2.cury = w.cury := by
  induction n with
  | zero => intro sline pline sx1 sx2 px nc scr w; rfl
  | succ n ih =>
    intro sline pline sx1 sx2 px nc scr w
    rw [prLoop, ih, prStep_snd_cury]

theorem prLoop_snd_curx (n : Nat) :
    ∀ (sline pline sx1 sx2 px nc : Int) (scr : ScreenT) (w : Window),
    (prLoop n sline pline sx1 sx2 px nc scr w).2.curx = w.curx := by
  induction n with
  | zero => intro sline pline sx1 sx2 px nc scr w; rfl
  | succ n ih =>
    intro sline pline sx1 sx2 px nc scr w
    rw [prLoop, ih, prStep_snd_curx]

theorem prLoop_snd_leaveit (n : Nat) :
    ∀ (sline pline sx1 sx2 px nc : Int) (scr : ScreenT) (w : Window),
    (prLoop n sline pline sx1 sx2 px nc scr w).2.leaveit = w.leaveit := by
  induction n with
  | zero => intro sline pline sx1 sx2 px nc scr w; rfl
  | succ n ih =>
    intro sline pline sx1 sx2 px nc scr w
    rw [prLoop, ih, prStep_snd_leaveit]

theorem prLoop_snd_clear (n : Nat) :
    ∀ (sline pline sx1 sx2 px nc : Int) (scr : ScreenT) (w : Window),
    (prLoop n sline pline sx1 sx2 px nc scr w).2.clear = w.clear := by
  induction n with
  | zero => intro sline pline sx1 sx2 px nc scr w; rfl
  | succ n ih =>
    intro sline pline sx1 sx2 px nc scr w
    rw [prLoop, ih, prStep_snd_clear]

theorem prLoop_fst_cury (n : Nat) :
    ∀ (sline pline sx1 sx2 px nc : Int) (scr : ScreenT) (w : Window),
    (prLoop n sline pline sx1 sx2 px nc scr w).1.cury = scr.cury := by
  induction n with
  | zero => intro sline pline sx1 sx2 px nc scr w; rfl
  | succ n ih =>
    intro sline pline sx1 sx2 px nc scr w
    rw [prLoop, ih, prStep_fst_cury]

theorem prLoop_fst_curx (n : Nat) :
    ∀ (sline pline sx1 sx2 px nc : Int) (scr : ScreenT) (w : Window),
    (prLoop n sline pline sx1 sx2 px nc scr w).1.curx = scr.curx := by
  induction n with
  | zero => intro sline pline sx1 sx2 px nc scr w; rfl
  | succ n ih =>
    intro sline pline sx1 sx2 px nc scr w
    rw [prLoop, ih, prStep_fst_curx]

theorem prLoop_fst_clear (n : Nat) :
    ∀ (sline pline sx1 sx2 px nc : Int) (scr : ScreenT) (w : Window),
    (prLoop n sline pline sx1 sx2 px nc scr w).1.clear = scr.clear := by
  induction n with
  | zero => intro sline pline sx1 sx2 px nc scr w; rfl
  | succ n ih =>
    intro sline pline sx1 sx2 px nc scr w
    rw [prLoop, ih, prStep_fst_clear]

theorem prLoop_fst_ycells (n : Nat) :
    ∀ (sline pline sx1 sx2 px nc : Int) (scr : ScreenT) (w : Window) (r c : Int),
    (prLoop n sline pline sx1 sx2 px nc scr w).1.ycells r c =
      if sline ≤ r ∧ r < sline + n ∧ pline + (r - sline) < w.maxy ∧
          sx1 ≤ c ∧ c < sx1 + nc then
        w.ycells (pline + (r - sline)) (px + (c - sx1))
      else scr.ycells r c := by
  induction n with
  | zero =>
    intro sline pline sx1 sx2 px nc scr w r c
    have h : ¬(sline ≤ r ∧ r < sline + (0 : Nat) ∧ pline + (r - sline) < w.maxy ∧
        sx1 ≤ c ∧ c < sx1 + nc) := by omega
    rw [prLoop, if_neg h]
  | succ n ih =>
    intro sline pline sx1 sx2 px nc scr w r c
    rw [prLoop, ih, prStep_snd_maxy, prStep_snd_ycells, prStep_fst_ycells]
    by_cases hA : sline + 1 ≤ r ∧ r < sline + 1 + n ∧ pline + 1 + (r - (sline + 1)) < w.maxy ∧
        sx1 ≤ c ∧ c < sx1 + nc
    · rw [if_pos hA]
      have hC : sline ≤ r ∧ r < sline + (n + 1 : Nat) ∧ pline + (r - sline) < w.maxy ∧
          sx1 ≤ c ∧ c < sx1 + nc := by omega
      rw [if_pos hC]
      have e1 : pline + 1 + (r - (sline + 1)) = pline + (r - sline) := by ring
      rw [e1]
    · rw [if_neg hA]
      by_cases hB : pline < w.maxy ∧ r = sline ∧ sx1 ≤ c ∧ c < sx1 + nc
      · rw [if_pos hB]
        have hC : sline ≤ r ∧ r < sline + (n + 1 : Nat) ∧ pline + (r - sline) < w.maxy ∧
            sx1 ≤ c ∧ c < sx1 + nc := by
          obtain ⟨h1, h2, h3, h4⟩ := hB
          subst h2
          refine ⟨le_refl _, by omega, by simpa using h1, h3, h4⟩
        rw [if_pos hC]
        obtain ⟨h1, h2, h3, h4⟩ := hB
        subst h2
        have e1 : pline + (r - r) = pline := by ring
        rw [e1]
      · rw [if_neg hB]
        have hC : ¬(sline ≤ r ∧ r < sline + (n + 1 : Nat) ∧ pline + (r - sline) < w.maxy ∧
            sx1 ≤ c ∧ c < sx1 + nc) := by
          intro hc
          rcases hc with ⟨h1, h2, h3, h4, h5⟩
          by_cases hr : r = sline
          · subst hr
            exact hB ⟨by simpa using h3, rfl, h4, h5⟩
          · exact hA ⟨by omega, by omega, by omega, h4, h5⟩
        rw [if_neg hC]


theorem prLoop_fst_firstch (n : Nat) :
    ∀ (sline pline sx1 sx2 px nc : Int) (scr : ScreenT) (w : Window) (r : Int),
    (prLoop n sline pline sx1 sx2 px nc scr w).1.firstch r =
      if sline ≤ r ∧ r < sline + n ∧ pline + (r - sline) < w.maxy ∧
          (scr.firstch r = NO_CHANGE ∨ scr.firstch r > sx1) then sx1
      else scr.firstch r := by
  induction n with
  | zero =>
    intro sline pline sx1 sx2 px nc scr w r
    have h : ¬(sline ≤ r ∧ r < sline + (0 : Nat) ∧ pline + (r - sline) < w.maxy ∧
        (scr.firstch r = NO_CHANGE ∨ scr.firstch r > sx1)) := by omega
    rw [prLoop, if_neg h]
  | succ n ih =>
    intro sline pline sx1 sx2 px nc scr w r
    rw [prLoop, ih, prStep_snd_maxy, prStep_fst_firstch]
    by_cases hr : r = sline
    · subst hr
      split_ifs <;> first | rfl | omega
    · have hne : ¬(pline < w.maxy ∧ r = sline ∧
          (scr.firstch sline = NO_CHANGE ∨ scr.firstch sline > sx1)) := by
        intro hc; exact hr hc.2.1
      rw [if_neg hne]
      split_ifs <;> first | rfl | omega

theorem prLoop_fst_lastch (n : Nat) :
    ∀ (sline pline sx1 sx2 px nc : Int) (scr : ScreenT) (w : Window) (r : Int),
    (prLoop n sline pline sx1 sx2 px nc scr w).1.lastch r =
      if sline ≤ r ∧ r < sline + n ∧ pline + (r - sline) < w.maxy ∧
          sx2 > scr.lastch r then sx2
      else scr.lastch r := by
  induction n with
  | zero =>
    intro sline pline sx1 sx2 px nc scr w r
    have h : ¬(sline ≤ r ∧ r < sline + (0 : Nat) ∧ pline + (r - sline) < w.maxy ∧
        sx2 > scr.lastch r) := by omega
    rw [prLoop, if_neg h]
  | succ n ih =>
    intro sline pline sx1 sx2 px nc scr w r
    rw [prLoop, ih, prStep_snd_maxy, prStep_fst_lastch]
    by_cases hr : r = sline
    · subst hr
      split_ifs <;> first | rfl | omega
    · have hne : ¬(pline < w.maxy ∧ r = sline ∧ sx2 > scr.lastch sline) := by
        intro hc; exact hr hc.2.1
      rw [if_neg hne]
      split_ifs <;> first | rfl | omega

theorem prLoop_snd_firstch (n : Nat) :
    ∀ (sline pline sx1 sx2 px nc : Int) (scr : ScreenT) (w : Window) (p : Int),
    (prLoop n sline pline sx1 sx2 px nc scr w).2.firstch p =
      if pline ≤ p ∧ p < pline + n ∧ p < w.maxy then NO_CHANGE else w.firstch p := by
  induction n with
  | zero =>
    intro sline pline sx1 sx2 px nc scr w p
    have h : ¬(pline ≤ p ∧ p < pline + (0 : Nat) ∧ p < w.maxy) := by omega
    rw [prLoop, if_neg h]
  | succ n ih =>
    intro sline pline sx1 sx2 px nc scr w p
    rw [prLoop, ih, prStep_snd_maxy, prStep_snd_firstch]
    split_ifs <;> first | rfl | omega

theorem prLoop_snd_lastch (n : Nat) :
    ∀ (sline pline sx1 sx2 px nc : Int) (scr : ScreenT) (w : Window) (p : Int),
    (prLoop n sline pline sx1 sx2 px nc scr w).2.lastch p =
      if pline ≤ p ∧ p < pline + n ∧ p < w.maxy then NO_CHANGE else w.lastch p := by
  induction n with
  | zero =>
    intro sline pline sx1 sx2 px nc scr w p
    have h : ¬(pline ≤ p ∧ p < pline + (0 : Nat) ∧ p < w.maxy) := by omega
    rw [prLoop, if_neg h]
  | succ n ih =>
    intro sline pline sx1 sx2 px nc scr w p
    rw [prLoop, ih, prStep_snd_maxy, prStep_snd_lastch]
    split_ifs <;> first | rfl | omega



theorem pnrClear_fst_ycells (p : ScreenT × Window) : (pnrClear p).1.ycells = p.1.ycells := by
  unfold pnrClear; split <;> rfl

theorem pnrClear_fst_firstch (p : ScreenT × Window) : (pnrClear p).1.firstch = p.1.firstch := by
  unfold pnrClear; split <;> rfl

theorem pnrClear_fst_lastch (p : ScreenT × Window) : (pnrClear p).1.lastch = p.1.lastch := by
  unfold pnrClear; split <;> rfl

theorem pnrClear_fst_cury (p : ScreenT × Window) : (pnrClear p).1.cury = p.1.cury := by
  unfold pnrClear; split <;> rfl

theorem pnrClear_fst_curx (p : ScreenT × Window) : (pnrClear p).1.curx = p.1.curx := by
  unfold pnrClear; split <;> rfl

theorem pnrClear_snd_ycells (p : ScreenT × Window) : (pnrClear p).2.ycells = p.2.ycells := by
  unfold pnrClear; split <;> rfl

theorem pnrClear_snd_firstch (p : ScreenT × Window) : (pnrClear p).2.firstch = p.2.firstch := by
  unfold pnrClear; split <;> rfl

theorem pnrClear_snd_lastch (p : ScreenT × Window) : (pnrClear p).2.lastch = p.2.lastch := by
  unfold pnrClear; split <;> rfl

theorem pnrClear_snd_cury (p : ScreenT × Window) : (pnrClear p).2.cury = p.2.cury := by
  unfold pnrClear; split <;> rfl

theorem pnrClear_snd_curx (p : ScreenT × Window) : (pnrClear p).2.curx = p.2.curx := by
  unfold pnrClear; split <;> rfl

theorem pnrClear_snd_leaveit (p : ScreenT × Window) : (pnrClear p).2.leaveit = p.2.leaveit := by
  unfold pnrClear; split <;> rfl

theorem pnrClear_snd_maxy (p : ScreenT × Window) : (pnrClear p).2.maxy = p.2.maxy := by
  unfold pnrClear; split <;> rfl

theorem pnrCursor_fst_ycells (py px sy1 sx1 sy2 sx2 : Int) (p : ScreenT × Window) :
    (pnrCursor py px sy1 sx1 sy2 sx2 p).1.ycells = p.1.ycells := by
  unfold pnrCursor; split <;> rfl

theorem pnrCursor_fst_firstch (py px sy1 sx1 sy2 sx2 : Int) (p : ScreenT × Window) :
    (pnrCursor py px sy1 sx1 sy2 sx2 p).1.firstch = p.1.firstch := by
  unfold pnrCursor; split <;> rfl

theorem pnrCursor_fst_lastch (py px sy1 sx1 sy2 sx2 : Int) (p : ScreenT × Window) :
    (pnrCursor py px sy1 sx1 sy2 sx2 p).1.lastch = p.1.lastch := by
  unfold pnrCursor; split <;> rfl

theorem pnrCursor_snd (py px sy1 sx1 sy2 sx2 : Int) (p : ScreenT × Window) :
    (pnrCursor py px sy1 sx1 sy2 sx2 p).2 = p.2 := by
  unfold pnrCursor; split <;> rfl

theorem pnrCursor_fst_cury (py px sy1 sx1 sy2 sx2 : Int) (p : ScreenT × Window) :
    (pnrCursor py px sy1 sx1 sy2 sx2 p).1.cury =
      if ¬p.2.leaveit ∧ p.2.cury ≥ py ∧ p.2.curx ≥ px ∧
          p.2.cury ≤ py + (sy2 - sy1) ∧ p.2.curx ≤ px + (sx2 - sx1) then
        (p.2.cury - py) + sy1
      else p.1.cury := by
  unfold pnrCursor; split <;> rfl

theorem pnrCursor_fst_curx (py px sy1 sx1 sy2 sx2 : Int) (p : ScreenT × Window) :
    (pnrCursor py px sy1 sx1 sy2 sx2 p).1.curx =
      if ¬p.2.leaveit ∧ p.2.cury ≥ py ∧ p.2.curx ≥ px ∧
          p.2.cury ≤ py + (sy2 - sy1) ∧ p.2.curx ≤ px + (sx2 - sx1) then
        (p.2.curx - px) + sx1
      else p.1.curx := by
  unfold pnrCursor; split <;> rfl

theorem pnrBody_fst_ycells (scr : ScreenT) (w : Window)
    (sline pline py px sy1 sx1 sy2 sx2 r c : Int) :
    (pnrBody scr w sline pline py px sy1 sx1 sy2 sx2).1.ycells r c =
      if sline ≤ r ∧ r < sline + (sy2 + 1 - sline).toNat ∧
          pline + (r - sline) < w.maxy ∧ sx1 ≤ c ∧
          c < sx1 + min (sx2 - sx1 + 1) (w.maxx - px) then
        w.ycells (pline + (r - sline)) (px + (c - sx1))
      else scr.ycells r c := by
  unfold pnrBody
  rw [pnrCursor_fst_ycells, pnrClear_fst_ycells, prLoop_fst_ycells]

theorem pnrBody_fst_firstch (scr : ScreenT) (w : Window)
    (sline pline py px sy1 sx1 sy2 sx2 r : Int) :
    (pnrBody scr w sline pline py px sy1 sx1 sy2 sx2).1.firstch r =
      if sline ≤ r ∧ r < sline + (sy2 + 1 - sline).toNat ∧
          pline + (r - sline) < w.maxy ∧
          (scr.firstch r = NO_CHANGE ∨ scr.firstch r > sx1) then sx1
      else scr.firstch r := by
  unfold pnrBody
  rw [pnrCursor_fst_firstch, pnrClear_fst_firstch, prLoop_fst_firstch]

theorem pnrBody_fst_lastch (scr : ScreenT) (w : Window)
    (sline pline py px sy1 sx1 sy2 sx2 r : Int) :
    (pnrBody scr w sline pline py px sy1 sx1 sy2 sx2).1.lastch r =
      if sline ≤ r ∧ r < sline + (sy2 + 1 - sline).toNat ∧
          pline + (r - sline) < w.maxy ∧ sx2 > scr.lastch r then sx2
      else scr.lastch r := by
  unfold pnrBody
  rw [pnrCursor_fst_lastch, pnrClear_fst_lastch, prLoop_fst_lastch]

theorem pnrBody_snd_firstch (scr : ScreenT) (w : Window)
    (sline pline py px sy1 sx1 sy2 sx2 p : Int) :
    (pnrBody scr w sline pline py px sy1 sx1 sy2 sx2).2.firstch p =
      if pline ≤ p ∧ p < pline + (sy2 + 1 - sline).toNat ∧ p < w.maxy then NO_CHANGE
      else w.firstch p := by
  unfold pnrBody
  rw [pnrCursor_snd, pnrClear_snd_firstch, prLoop_snd_firstch]

theorem pnrBody_snd_lastch (scr : ScreenT) (w : Window)
    (sline pline py px sy1 sx1 sy2 sx2 p : Int) :
    (pnrBody scr w sline pline py px sy1 sx1 sy2 sx2).2.lastch p =
      if pline ≤ p ∧ p < pline + (sy2 + 1 - sline).toNat ∧ p < w.maxy then NO_CHANGE
      else w.lastch p := by
  unfold pnrBody
  rw [pnrCursor_snd, pnrClear_snd_lastch, prLoop_snd_lastch]

theorem pnrBody_fst_cury (scr : ScreenT) (w : Window)
    (sline pline py px sy1 sx1 sy2 sx2 : Int) :
    (pnrBody scr w sline pline py px sy1 sx1 sy2 sx2).1.cury =
      if ¬w.leaveit ∧ w.cury ≥ py ∧ w.curx ≥ px ∧
          w.cury ≤ py + (sy2 - sy1) ∧ w.curx ≤ px + (sx2 - sx1) then
        (w.cury - py) + sy1
      else scr.cury := by
  unfold pnrBody
  rw [pnrCursor_fst_cury, pnrClear_snd_leaveit, pnrClear_snd_cury, pnrClear_snd_curx,
    prLoop_snd_leaveit, prLoop_snd_cury, prLoop_snd_curx, pnrClear_fst_cury, prLoop_fst_cury]

theorem pnrBody_fst_curx (scr : ScreenT) (w : Window)
    (sline pline py px sy1 sx1 sy2 sx2 : Int) :
    (pnrBody scr w sline pline py px sy1 sx1 sy2 sx2).1.curx =
      if ¬w.leaveit ∧ w.cury ≥ py ∧ w.curx ≥ px ∧
          w.cury ≤ py + (sy2 - sy1) ∧ w.curx ≤ px + (sx2 - sx1) then
        (w.curx - px) + sx1
      else scr.curx := by
  unfold pnrBody
  rw [pnrCursor_fst_curx, pnrClear_snd_leaveit, pnrClear_snd_cury, pnrClear_snd_curx,
    prLoop_snd_leaveit, prLoop_snd_cury, prLoop_snd_curx, pnrClear_fst_curx, prLoop_fst_curx]

theorem pnoutrefresh_ok (LINES COLS : Int) (scr : ScreenT) (w : Window)
    (py px sy1 sx1 sy2 sx2 : Int)
    (hflag : w.flagsPad ∨ w.flagsSubpad) (hL : sy2 < LINES) (hC : sy2 < COLS)
    (hpy : 0 ≤ py) (hpx : 0 ≤ px) (hsy1 : 0 ≤ sy1) (hsx1 : 0 ≤ sx1)
    (hyy : sy1 ≤ sy2) (hxx : sx1 ≤ sx2) :
    pnoutrefresh LINES COLS scr (some w) py px sy1 sx1 sy2 sx2 =
      (OK, (pnrBody scr w sy1 py py px sy1 sx1 sy2 sx2).1,
       some (pnrBody scr w sy1 py py px sy1 sx1 sy2 sx2).2) := by
  have h1 : ¬(¬(w.flagsPad ∨ w.flagsSubpad) ∨ sy2 ≥ LINES ∨ sy2 ≥ COLS) := by
    push_neg
    exact ⟨hflag, hL, hC⟩
  simp only [pnoutrefresh]
  rw [if_neg h1, if_neg (show ¬py < 0 by omega), if_neg (show ¬px < 0 by omega),
    if_neg (show ¬sy1 < 0 by omega), if_neg (show ¬sx1 < 0 by omega),
    if_neg (show ¬(sy2 < sy1 ∨ sx2 < sx1) by omega)]



/-- A sample screen buffer used by the concrete evaluations: every cell
holds 7, no row is damaged, the cursor sits at the origin. -/
def scrSample : ScreenT :=
  { ycells := fun _ _ => 7, firstch := fun _ => NO_CHANGE, lastch := fun _ => NO_CHANGE,
    cury := 0, curx := 0, clear := false }

/-- A sample 1-row, 200-column pad whose cells all hold 9. -/
def padWide : Window :=
  { flagsPad := true, flagsSubpad := false, maxy := 1, maxx := 200, cury := 0, curx := 0,
    leaveit := true, clear := false, ycells := fun _ _ => 9,
    firstch := fun _ => 0, lastch := fun _ => 199 }

/-- A sample 5-by-5 pad whose every cell holds its row index, so that which
pad row was copied can be read off the destination. -/
def padTall : Window :=
  { flagsPad := true, flagsSubpad := false, maxy := 5, maxx := 5, cury := 0, curx := 0,
    leaveit := true, clear := false, ycells := fun r _ => r,
    firstch := fun _ => 0, lastch := fun _ => 4 }

/-- C1: the validation of `pnoutrefresh` does not check the far corner's
column against the screen's column bound: the source tests `sy2 >= COLS`
where the claim (and the upstream pdcurses code) has `sx2 >= COLS`.  On a
24-line, 80-column screen, a call with `sx2 = 100` (far corner outside the
column bound, which the claim says must fail with no mutation) returns OK
and writes a pad cell to screen column 90; conversely, on an 80-line,
24-column screen a call with the in-bounds far corner `(30, 10)` is
rejected. -/
theorem pnoutrefresh_far_corner_column_unchecked :
    (pnoutrefresh 24 80 scrSample (some padWide) 0 0 0 0 0 100).1 = OK ∧
    (pnoutrefresh 24 80 scrSample (some padWide) 0 0 0 0 0 100).2.1.ycells 0 90 = 9 ∧
    (pnoutrefresh 80 24 scrSample (some padWide) 0 0 0 0 30 10).1 = ERR := by
  refine ⟨by decide, by decide, by decide⟩

/-- C2: negative coordinates are clamped only after the loop counters
`sline`/`pline` have already captured the unclamped `sy1`/`py`, so the copy
does not walk from the clamped values: with `padOriginRow = -1` the cell a
call stores into screen row 0 comes from pad row `-1` (an out-of-bounds
read in the C code), not from pad row 0 as the call with the clamped origin
performs, so the two calls are not state-identical as the claim states. -/
theorem pnoutrefresh_negative_origin_unclamped_walk :
    (pnoutrefresh 10 10 scrSample (some padTall) (-1) 0 0 0 0 0).1 = OK ∧
    (pnoutrefresh 10 10 scrSample (some padTall) (-1) 0 0 0 0 0).2.1.ycells 0 0 = -1 ∧
    (pnoutrefresh 10 10 scrSample (some padTall) 0 0 0 0 0 0).2.1.ycells 0 0 = 0 := by
  refine ⟨by decide, by decide, by decide⟩


/-- C3: on a validated call with nonnegative coordinates (the form every
call takes after the clamping step) and a pad origin column inside the pad,
`pnoutrefresh` succeeds and the resulting screen cells are exactly: for each
screen row `r` in `[sy1, sy2]` whose lockstep pad row `py + (r - sy1)` is
inside the pad's height, the `num_cols = min(sx2 - sx1 + 1, maxx - px)`
cells starting at column `sx1` come from the pad row starting at column
`px`; every other screen cell (outside the rectangle, beyond `num_cols`, or
in a row whose pad row is beyond the pad's height) is unchanged. -/
theorem pnoutrefresh_copy_exact (LINES COLS : Int) (scr : ScreenT) (w : Window)
    (py px sy1 sx1 sy2 sx2 : Int)
    (hflag : w.flagsPad ∨ w.flagsSubpad) (hL : sy2 < LINES) (hC : sy2 < COLS)
    (hpy : 0 ≤ py) (hpx : 0 ≤ px) (hsy1 : 0 ≤ sy1) (hsx1 : 0 ≤ sx1)
    (hyy : sy1 ≤ sy2) (hxx : sx1 ≤ sx2) (hpxw : px ≤ w.maxx) :
    (pnoutrefresh LINES COLS scr (some w) py px sy1 sx1 sy2 sx2).1 = OK ∧
    ∀ r c, (pnoutrefresh LINES COLS scr (some w) py px sy1 sx1 sy2 sx2).2.1.ycells r c =
      if sy1 ≤ r ∧ r ≤ sy2 ∧ py + (r - sy1) < w.maxy ∧
          sx1 ≤ c ∧ c < sx1 + min (sx2 - sx1 + 1) (w.maxx - px) then
        w.ycells (py + (r - sy1)) (px + (c - sx1))
      else scr.ycells r c := by
  rw [pnoutrefresh_ok LINES COLS scr w py px sy1 sx1 sy2 sx2 hflag hL hC hpy hpx hsy1 hsx1
    hyy hxx]
  refine ⟨rfl, fun r c => ?_⟩
  rw [pnrBody_fst_ycells]
  by_cases h : sy1 ≤ r ∧ r ≤ sy2 ∧ py + (r - sy1) < w.maxy ∧
      sx1 ≤ c ∧ c < sx1 + min (sx2 - sx1 + 1) (w.maxx - px)
  · rw [if_pos (by omega), if_pos h]
  · rw [if_neg (by omega), if_neg h]


/-- A sample 3-by-4 pad whose cell (r, c) holds 10*r + c, so the copied
source coordinates can be read off the destination. -/
def padGrid : Window :=
  { flagsPad := true, flagsSubpad := false, maxy := 3, maxx := 4, cury := 0, curx := 0,
    leaveit := true, clear := false, ycells := fun r c => 10 * r + c,
    firstch := fun _ => 0, lastch := fun _ => 3 }

/-- Witness for C3: on a 10x10 screen, compositing `padGrid` with
`padOrigin = (1,1)`, screen rectangle `(2,3)-(6,8)`: screen cell (3,4)
receives pad cell (2,2) = 22, and cell (4,5) (whose lockstep pad row 3 is
beyond the pad's height) keeps the prior screen value 7. -/
theorem pnoutrefresh_copy_exact_witness :
    (pnoutrefresh 10 10 scrSample (some padGrid) 1 1 2 3 6 8).2.1.ycells 3 4 = 22 ∧
    (pnoutrefresh 10 10 scrSample (some padGrid) 1 1 2 3 6 8).2.1.ycells 4 5 = 7 := by
  have e1 : padGrid.ycells (1 + (3 - 2)) (1 + (4 - 3)) = 22 := by decide
  have e2 : scrSample.ycells 4 5 = 7 := by decide
  have hc : ((2:Int) ≤ 3 ∧ (3:Int) ≤ 6 ∧ 1 + (3 - 2) < padGrid.maxy ∧ (3:Int) ≤ 4 ∧
      (4:Int) < 3 + min (8 - 3 + 1) (padGrid.maxx - 1)) := by decide
  have hc' : ¬((2:Int) ≤ 4 ∧ (4:Int) ≤ 6 ∧ 1 + (4 - 2) < padGrid.maxy ∧ (3:Int) ≤ 5 ∧
      (5:Int) < 3 + min (8 - 3 + 1) (padGrid.maxx - 1)) := by decide
  have h := pnoutrefresh_copy_exact 10 10 scrSample padGrid 1 1 2 3 6 8
    (by decide) (by decide) (by decide) (by decide) (by decide) (by decide) (by decide)
    (by decide) (by decide) (by decide)
  have h34 := h.2 3 4
  have h45 := h.2 4 5
  rw [if_pos hc] at h34
  rw [if_neg hc'] at h45
  exact ⟨h34.trans e1, h45.trans e2⟩



/-- C4: on a validated call with nonnegative coordinates, after a
successful `pnoutrefresh` every copied pad row's damage range is the
"no change" sentinel; every touched screen row's damage range is the union
of its previous range and `[sx1, sx2]` (a previous "no change" lower bound
being treated as unset); every untouched screen row's range is unchanged;
and no screen row's damage range ever shrinks. -/
theorem pnoutrefresh_damage_merge (LINES COLS : Int) (scr : ScreenT) (w : Window)
    (py px sy1 sx1 sy2 sx2 : Int)
    (hflag : w.flagsPad ∨ w.flagsSubpad) (hL : sy2 < LINES) (hC : sy2 < COLS)
    (hpy : 0 ≤ py) (hpx : 0 ≤ px) (hsy1 : 0 ≤ sy1) (hsx1 : 0 ≤ sx1)
    (hyy : sy1 ≤ sy2) (hxx : sx1 ≤ sx2) :
    (pnoutrefresh LINES COLS scr (some w) py px sy1 sx1 sy2 sx2).1 = OK ∧
    (∀ w', (pnoutrefresh LINES COLS scr (some w) py px sy1 sx1 sy2 sx2).2.2 = some w' →
      ∀ p, py ≤ p → p ≤ py + (sy2 - sy1) → p < w.maxy →
        w'.firstch p = NO_CHANGE ∧ w'.lastch p = NO_CHANGE) ∧
    (∀ r, sy1 ≤ r → r ≤ sy2 → py + (r - sy1) < w.maxy →
      (pnoutrefresh LINES COLS scr (some w) py px sy1 sx1 sy2 sx2).2.1.firstch r =
        (if scr.firstch r = NO_CHANGE then sx1 else min (scr.firstch r) sx1) ∧
      (pnoutrefresh LINES COLS scr (some w) py px sy1 sx1 sy2 sx2).2.1.lastch r =
        max (scr.lastch r) sx2) ∧
    (∀ r, ¬(sy1 ≤ r ∧ r ≤ sy2 ∧ py + (r - sy1) < w.maxy) →
      (pnoutrefresh LINES COLS scr (some w) py px sy1 sx1 sy2 sx2).2.1.firstch r =
        scr.firstch r ∧
      (pnoutrefresh LINES COLS scr (some w) py px sy1 sx1 sy2 sx2).2.1.lastch r =
        scr.lastch r) ∧
    (∀ r, (scr.firstch r ≠ NO_CHANGE →
        (pnoutrefresh LINES COLS scr (some w) py px sy1 sx1 sy2 sx2).2.1.firstch r ≤
          scr.firstch r) ∧
      scr.lastch r ≤ (pnoutrefresh LINES COLS scr (some w) py px sy1 sx1 sy2 sx2).2.1.lastch r) := by
  rw [pnoutrefresh_ok LINES COLS scr w py px sy1 sx1 sy2 sx2 hflag hL hC hpy hpx hsy1 hsx1
    hyy hxx]
  refine ⟨rfl, ?_, ?_, ?_, ?_⟩
  · intro w' hw' p hp1 hp2 hp3
    have hw'' : w' = (pnrBody scr w sy1 py py px sy1 sx1 sy2 sx2).2 := by
      exact (Option.some_injective _ hw'.symm)
    subst hw''
    rw [pnrBody_snd_firstch, pnrBody_snd_lastch]
    rw [if_pos (by omega), if_pos (by omega)]
    exact ⟨rfl, rfl⟩
  · intro r h1 h2 h3
    rw [pnrBody_fst_firstch, pnrBody_fst_lastch]
    constructor
    · split_ifs <;> omega
    · split_ifs <;> omega
  · intro r hr
    rw [pnrBody_fst_firstch, pnrBody_fst_lastch]
    rw [if_neg (by omega), if_neg (by omega)]
    exact ⟨rfl, rfl⟩
  · intro r
    rw [pnrBody_fst_firstch, pnrBody_fst_lastch]
    constructor
    · intro hnc
      split_ifs <;> omega
    · split_ifs <;> omega


/-- A sample screen with pre-existing damage on row 2 (`[5, 6]`), to
exercise the damage-range union. -/
def scrDam : ScreenT :=
  { ycells := fun _ _ => 7,
    firstch := fun r => if r = 2 then 5 else NO_CHANGE,
    lastch := fun r => if r = 2 then 6 else NO_CHANGE,
    cury := 0, curx := 0, clear := false }

/-- Witness for C4: compositing `padGrid` onto rows 2-4, columns 3-8 of
`scrDam` widens row 2's damage range from `[5, 6]` to `[3, 8]`. -/
theorem pnoutrefresh_damage_merge_witness :
    (pnoutrefresh 10 10 scrDam (some padGrid) 0 0 2 3 4 8).2.1.firstch 2 = 3 ∧
    (pnoutrefresh 10 10 scrDam (some padGrid) 0 0 2 3 4 8).2.1.lastch 2 = 8 := by
  have h := pnoutrefresh_damage_merge 10 10 scrDam padGrid 0 0 2 3 4 8
    (by decide) (by decide) (by decide) (by decide) (by decide) (by decide) (by decide)
    (by decide) (by decide)
  have h2 := h.2.2.1 2 (by decide) (by decide) (by decide)
  have e1 : (if scrDam.firstch 2 = NO_CHANGE then (3:Int) else min (scrDam.firstch 2) 3) = 3 := by
    decide
  have e2 : max (scrDam.lastch 2) 8 = (8:Int) := by decide
  exact ⟨h2.1.trans e1, h2.2.trans e2⟩

/-- C5: on a validated call with nonnegative coordinates, the screen cursor
after `pnoutrefresh` is the pad cursor translated by `screenOrigin -
padOrigin` exactly when cursor placement is not suppressed (`_leaveit`
unset) and the pad cursor lies inside the displayed pad sub-rectangle
`[py, py + (sy2-sy1)] x [px, px + (sx2-sx1)]`; otherwise it is the previous
screen cursor. -/
theorem pnoutrefresh_cursor_relocation (LINES COLS : Int) (scr : ScreenT) (w : Window)
    (py px sy1 sx1 sy2 sx2 : Int)
    (hflag : w.flagsPad ∨ w.flagsSubpad) (hL : sy2 < LINES) (hC : sy2 < COLS)
    (hpy : 0 ≤ py) (hpx : 0 ≤ px) (hsy1 : 0 ≤ sy1) (hsx1 : 0 ≤ sx1)
    (hyy : sy1 ≤ sy2) (hxx : sx1 ≤ sx2) :
    (pnoutrefresh LINES COLS scr (some w) py px sy1 sx1 sy2 sx2).1 = OK ∧
    (pnoutrefresh LINES COLS scr (some w) py px sy1 sx1 sy2 sx2).2.1.cury =
      (if ¬w.leaveit ∧ py ≤ w.cury ∧ px ≤ w.curx ∧
          w.cury ≤ py + (sy2 - sy1) ∧ w.curx ≤ px + (sx2 - sx1) then
        (w.cury - py) + sy1
      else scr.cury) ∧
    (pnoutrefresh LINES COLS scr (some w) py px sy1 sx1 sy2 sx2).2.1.curx =
      (if ¬w.leaveit ∧ py ≤ w.cury ∧ px ≤ w.curx ∧
          w.cury ≤ py + (sy2 - sy1) ∧ w.curx ≤ px + (sx2 - sx1) then
        (w.curx - px) + sx1
      else scr.curx) := by
  rw [pnoutrefresh_ok LINES COLS scr w py px sy1 sx1 sy2 sx2 hflag hL hC hpy hpx hsy1 hsx1
    hyy hxx]
  refine ⟨rfl, ?_, ?_⟩
  · rw [pnrBody_fst_cury]
  · rw [pnrBody_fst_curx]


/-- A 5-by-5 pad whose cursor (2, 1) sits exactly on the bottom edge of the
pad sub-rectangle displayed by the witness call below. -/
def padCurEdge : Window :=
  { flagsPad := true, flagsSubpad := false, maxy := 5, maxx := 5, cury := 2, curx := 1,
    leaveit := false, clear := false, ycells := fun _ _ => 0,
    firstch := fun _ => NO_CHANGE, lastch := fun _ => NO_CHANGE }

/-- Like `padCurEdge` but with the cursor one row below the displayed
sub-rectangle's bottom edge. -/
def padCurBelow : Window :=
  { flagsPad := true, flagsSubpad := false, maxy := 5, maxx := 5, cury := 3, curx := 1,
    leaveit := false, clear := false, ycells := fun _ _ => 0,
    firstch := fun _ => NO_CHANGE, lastch := fun _ => NO_CHANGE }

/-- Witness for C5: displaying pad rows 0-2 on screen rows 1-3, a pad
cursor exactly at the bottom edge (row 2) relocates the screen cursor to
(3, 2), while a pad cursor one row below the bottom edge (row 3) leaves the
screen cursor at its prior position (0, 0). -/
theorem pnoutrefresh_cursor_relocation_witness :
    (pnoutrefresh 10 10 scrSample (some padCurEdge) 0 0 1 1 3 3).2.1.cury = 3 ∧
    (pnoutrefresh 10 10 scrSample (some padCurEdge) 0 0 1 1 3 3).2.1.curx = 2 ∧
    (pnoutrefresh 10 10 scrSample (some padCurBelow) 0 0 1 1 3 3).2.1.cury = 0 := by
  have h1 := pnoutrefresh_cursor_relocation 10 10 scrSample padCurEdge 0 0 1 1 3 3
    (by decide) (by decide) (by decide) (by decide) (by decide) (by decide) (by decide)
    (by decide) (by decide)
  have h2 := pnoutrefresh_cursor_relocation 10 10 scrSample padCurBelow 0 0 1 1 3 3
    (by decide) (by decide) (by decide) (by decide) (by decide) (by decide) (by decide)
    (by decide) (by decide)
  have e1 : (if ¬padCurEdge.leaveit ∧ 0 ≤ padCurEdge.cury ∧ 0 ≤ padCurEdge.curx ∧
      padCurEdge.cury ≤ 0 + (3 - 1) ∧ padCurEdge.curx ≤ 0 + (3 - 1) then
        (padCurEdge.cury - 0) + 1 else scrSample.cury) = 3 := by decide
  have e2 : (if ¬padCurEdge.leaveit ∧ 0 ≤ padCurEdge.cury ∧ 0 ≤ padCurEdge.curx ∧
      padCurEdge.cury ≤ 0 + (3 - 1) ∧ padCurEdge.curx ≤ 0 + (3 - 1) then
        (padCurEdge.curx - 0) + 1 else scrSample.curx) = 2 := by decide
  have e3 : (if ¬padCurBelow.leaveit ∧ 0 ≤ padCurBelow.cury ∧ 0 ≤ padCurBelow.curx ∧
      padCurBelow.cury ≤ 0 + (3 - 1) ∧ padCurBelow.curx ≤ 0 + (3 - 1) then
        (padCurBelow.cury - 0) + 1 else scrSample.cury) = 0 := by decide
  exact ⟨h1.2.1.trans e1, h1.2.2.trans e2, h2.2.1.trans e3⟩



/-- The six file-static `save_*` variables of pdc_pad.c (the
Last-Displayed-Region used by `pechochar`). -/
structure Saves where
  pminrow : Int
  pmincol : Int
  sminrow : Int
  smincol : Int
  smaxrow : Int
  smaxcol : Int
deriving DecidableEq

/-- Embedding of `newpad()` (pdc_pad.c:125-150): the result pairs the new
pad with the `save_*` state the call leaves behind.  `PDC_makenew`,
`PDC_makelines` and `werase` are outside the excerpt and are modelled from
the spec ("allocate" then "erase": allocation always succeeds here, the
erased pad has every cell blank (32), every row fully damaged, the cursor
at the origin, no flag set except `_PAD` as stored by `newpad` itself). -/
def newpad (LINES COLS nlines ncols : Int) : Window × Saves :=
  ({ flagsPad := true, flagsSubpad := false, maxy := nlines, maxx := ncols,
     cury := 0, curx := 0, leaveit := false, clear := false,
     ycells := fun _ _ => 32, firstch := fun _ => 0, lastch := fun _ => ncols - 1 },
   { pminrow := 0, pmincol := 0, sminrow := 0, smincol := 0,
     smaxrow := min LINES nlines - 1, smaxcol := min COLS ncols - 1 })

/-- Modelled from the spec: `waddch` is the "appendCell" collaborator
("appends `cell` at the pad's current cursor position, ... also advances
the cursor and marks the pad row dirty"); the failure case is not
exercised by the claims and is not modelled. -/
def waddch (w : Window) (ch : Int) : Option Window :=
  some { w with
    ycells := fun r c => if r = w.cury ∧ c = w.curx then ch else w.ycells r c,
    curx := w.curx + 1,
    firstch := fun r =>
      if r = w.cury ∧ (w.firstch w.cury = NO_CHANGE ∨ w.firstch w.cury > w.curx) then
        w.curx
      else w.firstch r,
    lastch := fun r =>
      if r = w.cury ∧ w.curx > w.lastch w.cury then w.curx else w.lastch r }

/-- Modelled from the spec: `doupdate()` is the external screen-driver
flush ("consumes damage ranges, or a full redraw if the pending flag is
set"); its effect on the terminal hardware is outside the model. -/
def doupdate (scr : ScreenT) : ScreenT :=
  { scr with firstch := fun _ => NO_CHANGE, lastch := fun _ => NO_CHANGE, clear := false }

/-- Embedding of `prefresh()` (pdc_pad.c:221-233): `pnoutrefresh` followed
by `doupdate` on success. -/
def prefresh (LINES COLS : Int) (curscr : ScreenT) (wopt : Option Window)
    (py px sy1 sx1 sy2 sx2 : Int) : Int × ScreenT × Option Window :=
  let r := pnoutrefresh LINES COLS curscr wopt py px sy1 sx1 sy2 sx2
  if r.1 = ERR then (ERR, r.2.1, r.2.2)
  else (OK, doupdate r.2.1, r.2.2)

/-- Embedding of `pechochar()` (pdc_pad.c:323-334): `waddch` on the pad
followed by `prefresh` with the six `save_*` values (`g`).  The `save_*`
state is an input only: the source of `pechochar`, `prefresh` and
`pnoutrefresh` contains no store to any `save_*` variable. -/
def pechochar (LINES COLS : Int) (curscr : ScreenT) (g : Saves) (padOpt : Option Window)
    (ch : Int) : Int × ScreenT × Option Window :=
  match padOpt with
  | none => (ERR, curscr, none)
  | some pad =>
    match waddch pad ch with
    | none => (ERR, curscr, some pad)
    | some pad' =>
      prefresh LINES COLS curscr (some pad') g.pminrow g.pmincol g.sminrow g.smincol
        g.smaxrow g.smaxcol

/-- C6: `pnoutrefresh` never updates the `save_*` state, so `pechochar`
composites with the region saved by the most recent pad *creation*, not by
the most recent explicit composite as the claim states.  Concretely: on a
24x80 screen, create a 10x10 pad (saves become `(0,0,0,0,9,9)`), composite
it explicitly with pad origin (2,3) onto screen rectangle (4,5)-(8,9)
(which leaves screen cell (0,0) untouched at 7), then call `pechochar`:
the echo composites with the creation-time region and overwrites screen
cell (0,0) with the echoed character 65, which the claimed behavior (reuse
of the explicit rectangle (4,5)-(8,9)) would leave at 7. -/
theorem pechochar_uses_creation_region :
    (newpad 24 80 10 10).2 = ⟨0, 0, 0, 0, 9, 9⟩ ∧
    (pnoutrefresh 24 80 scrSample (some (newpad 24 80 10 10).1) 2 3 4 5 8 9).2.1.ycells 0 0
      = 7 ∧
    (pechochar 24 80
        (pnoutrefresh 24 80 scrSample (some (newpad 24 80 10 10).1) 2 3 4 5 8 9).2.1
        (newpad 24 80 10 10).2
        (pnoutrefresh 24 80 scrSample (some (newpad 24 80 10 10).1) 2 3 4 5 8 9).2.2
        65).2.1.ycells 0 0 = 65 := by
  refine ⟨by decide, by decide, by decide⟩


/-- The view of the `WINDOW` structure used by `subpad()`: here the row
array `_y` is modelled as a map from row index to the row's storage handle
(the address of its first cell, an integer), because `subpad`'s essential
effect is pointer aliasing: `win->_y[i] = orig->_y[begy + i] + begx`.
Adding an integer to a handle models the C pointer offset by that many
cells.  The `_parent` back-pointer is not needed by any claim and is
omitted. -/
structure PadWin where
  flagsPad : Bool
  flagsSubpad : Bool
  begy : Int
  begx : Int
  maxy : Int
  maxx : Int
  attrs : Int
  leaveit : Bool
  scroll : Bool
  nodelay : Bool
  usekeypad : Bool
  y : Int → Int

/-- Modelled from the spec: `PDC_makenew(nlines, ncols, begy, begx)` is the
"allocate(height, width, originRow, originCol) -> Buffer" collaborator: it
records the dimensions and origin offset in the fresh Buffer; allocation
failure is an environment event that is not modelled, and the fresh row
handles are left at 0 (`subpad` overwrites every row it uses). -/
def PDC_makenew (nlines ncols begy begx : Int) : PadWin :=
  { flagsPad := false, flagsSubpad := false, begy := begy, begx := begx,
    maxy := nlines, maxx := ncols, attrs := 0, leaveit := false, scroll := false,
    nodelay := false, usekeypad := false, y := fun _ => 0 }

/-- Embedding of `subpad()` (pdc_pad.c:152-219).  The result pairs the
returned window (`none` = NULL) with the `save_*` state the call leaves
behind (written only on the success path, as in the source). -/
def subpad (LINES COLS : Int) (origOpt : Option PadWin) (nlines ncols begy begx : Int)
    (g : Saves) : Option PadWin × Saves :=
  match origOpt with
  | none => (none, g)
  | some orig =>
    if ¬orig.flagsPad then (none, g)
    else if begy < orig.begy ∨ begx < orig.begx ∨
        begy + nlines > orig.begy + orig.maxy ∨ begx + ncols > orig.begx + orig.maxx then
      (none, g)
    else
      let j := begy
      let k := begx
      let nlines := if nlines = 0 then orig.maxy - 1 - j else nlines
      let ncols := if ncols = 0 then orig.maxx - 1 - k else ncols
      let win := PDC_makenew nlines ncols begy begx
      (some { win with
          attrs := orig.attrs, leaveit := orig.leaveit, scroll := orig.scroll,
          nodelay := orig.nodelay, usekeypad := orig.usekeypad,
          y := fun i => if 0 ≤ i ∧ i < nlines then orig.y (j + i) + k else win.y i,
          flagsPad := false, flagsSubpad := true },
       { pminrow := 0, pmincol := 0, sminrow := 0, smincol := 0,
         smaxrow := min LINES nlines - 1, smaxcol := min COLS ncols - 1 })

/-- C7: `subpad` returns no window when the parent is NULL or is not
flagged as a pad, or when the requested bounds exceed the parent's extent;
a zero `nlines` (resp. `ncols`) is replaced before allocation by the extent
remaining from the offset to the parent's edge (`orig->_maxy - 1 - begy`,
resp. `orig->_maxx - 1 - begx`, which becomes the new window's dimension);
and on success every row handle of the derived window aliases the parent's
row `begy + i` offset by `begx` columns. -/
theorem subpad_spec :
    (∀ (LINES COLS nlines ncols begy begx : Int) (g : Saves),
      (subpad LINES COLS none nlines ncols begy begx g).1 = none) ∧
    (∀ (LINES COLS : Int) (orig : PadWin) (nlines ncols begy begx : Int) (g : Saves),
      ¬orig.flagsPad →
      (subpad LINES COLS (some orig) nlines ncols begy begx g).1 = none) ∧
    (∀ (LINES COLS : Int) (orig : PadWin) (nlines ncols begy begx : Int) (g : Saves),
      (begy + nlines > orig.begy + orig.maxy ∨ begx + ncols > orig.begx + orig.maxx) →
      (subpad LINES COLS (some orig) nlines ncols begy begx g).1 = none) ∧
    (∀ (LINES COLS : Int) (orig : PadWin) (ncols begy begx : Int) (g : Saves) (w : PadWin),
      (subpad LINES COLS (some orig) 0 ncols begy begx g).1 = some w →
      w.maxy = orig.maxy - 1 - begy) ∧
    (∀ (LINES COLS : Int) (orig : PadWin) (nlines begy begx : Int) (g : Saves) (w : PadWin),
      (subpad LINES COLS (some orig) nlines 0 begy begx g).1 = some w →
      w.maxx = orig.maxx - 1 - begx) ∧
    (∀ (LINES COLS : Int) (orig : PadWin) (nlines ncols begy begx : Int) (g : Saves)
        (w : PadWin),
      (subpad LINES COLS (some orig) nlines ncols begy begx g).1 = some w →
      ∀ i, 0 ≤ i → i < w.maxy → w.y i = orig.y (begy + i) + begx) := by
  refine ⟨fun _ _ _ _ _ _ _ => rfl, ?_, ?_, ?_, ?_, ?_⟩
  · intro LINES COLS orig nlines ncols begy begx g hflag
    simp only [subpad, if_pos hflag]
  · intro LINES COLS orig nlines ncols begy begx g hb
    by_cases hflag : orig.flagsPad
    · have hbig : begy < orig.begy ∨ begx < orig.begx ∨
          begy + nlines > orig.begy + orig.maxy ∨ begx + ncols > orig.begx + orig.maxx := by
        rcases hb with h | h
        · exact Or.inr (Or.inr (Or.inl h))
        · exact Or.inr (Or.inr (Or.inr h))
      simp only [subpad, if_neg (not_not_intro hflag), if_pos hbig]
    · simp only [subpad, if_pos hflag]
  · intro LINES COLS orig ncols begy begx g w hw
    simp only [subpad] at hw
    split_ifs at hw
    all_goals
      have hww := Option.some_injective _ hw.symm
      subst hww
      simp [PDC_makenew]
  · intro LINES COLS orig nlines begy begx g w hw
    simp only [subpad] at hw
    split_ifs at hw
    all_goals
      have hww := Option.some_injective _ hw.symm
      subst hww
      simp [PDC_makenew]
  · intro LINES COLS orig nlines ncols begy begx g w hw i hi0 hiw
    simp only [subpad] at hw
    split_ifs at hw
    all_goals
      have hww := Option.some_injective _ hw.symm
      subst hww
      simp only [PDC_makenew] at hiw ⊢
      rw [if_pos ⟨hi0, by simpa using hiw⟩]


/-- A sample 10-by-10 parent pad for `subpad`: as built by `newpad`, its
origin fields hold -1 and row `i`'s storage handle is `100 * i`, so the
aliasing arithmetic is visible in the derived window. -/
def origP : PadWin :=
  { flagsPad := true, flagsSubpad := false, begy := -1, begx := -1, maxy := 10, maxx := 10,
    attrs := 0, leaveit := false, scroll := false, nodelay := false, usekeypad := false,
    y := fun i => 100 * i }

/-- An all-zero `save_*` state for the concrete `subpad` calls. -/
def savesZero : Saves := ⟨0, 0, 0, 0, 0, 0⟩

/-- Witness for C7: deriving a sub-pad of `origP` at offset (2, 3) with
`nlines = 0` succeeds with the zero height replaced by 10 - 1 - 2 = 7, its
row 1 aliasing parent row 3 shifted 3 columns (handle 303); a request whose
bounds exceed the parent's extent returns no window. -/
theorem subpad_spec_witness :
    ((subpad 24 80 (some origP) 0 4 2 3 savesZero).1.getD origP).maxy = 7 ∧
    ((subpad 24 80 (some origP) 0 4 2 3 savesZero).1.getD origP).y 1 = 303 ∧
    (subpad 24 80 (some origP) 9 4 2 3 savesZero).1 = none := by
  have hw : (subpad 24 80 (some origP) 0 4 2 3 savesZero).1 =
      some ((subpad 24 80 (some origP) 0 4 2 3 savesZero).1.getD origP) := rfl
  refine ⟨?_, ?_, ?_⟩
  · have h := subpad_spec.2.2.2.1 24 80 origP 4 2 3 savesZero _ hw
    have e : origP.maxy - 1 - 2 = 7 := by decide
    exact h.trans e
  · have h := subpad_spec.2.2.2.2.2 24 80 origP 0 4 2 3 savesZero _ hw 1 (by decide) ?_
    · have e : origP.y (2 + 1) + 3 = 303 := by decide
      exact h.trans e
    · have h7 : ((subpad 24 80 (some origP) 0 4 2 3 savesZero).1.getD origP).maxy = 7 := by
        have h := subpad_spec.2.2.2.1 24 80 origP 4 2 3 savesZero _ hw
        have e : origP.maxy - 1 - 2 = 7 := by decide
        exact h.trans e
      omega
  · exact subpad_spec.2.2.1 24 80 origP 9 4 2 3 savesZero (by decide)


end Pdc

namespace Nsh

/-- NuttX success status (`OK = 0`; the header is not part of the
excerpt, the value is the standard one). -/
def OK : Int := 0

/-- NuttX failure status (`ERROR = -1`). -/
def ERROR : Int := -1

/-- Modelled from the spec: the errno value for an interrupt signal
(`EINTR`; `errno.h` is not part of the excerpt — only comparison with it
matters, the concrete value is the conventional one). -/
def EINTR : Int := 4

/-- One `nsh_output` message sent to the error-reporting sink: a
`g_fmtcmdfailed` report naming the failing operation, a `g_fmtsignalrecvd`
report, or the bare newline `nsh_catfile` prints before returning. -/
inductive Msg where
  | cmdfailed (op : String)
  | signalrecvd
  | newline
deriving DecidableEq

/-- The result of one `read()` call, chosen by the environment: `rerr e`
models a return of -1 with `errno = e`; `rok k` models a successful return
delivering `min (k+1) (min count remainingFileBytes)` bytes — a blocking
read returns at least one byte unless the file is exhausted or the
requested count is zero, and never more than requested or than remain. -/
inductive RdEv where
  | rerr (e : Int)
  | rok (k : Nat)

/-- The result of one `nsh_write` call, chosen by the environment: `werr e`
models a negative return with `errno = e`; `wok n` models a return of `n`
(the bytes actually accepted; at most the requested length is transferred
to the stream). -/
inductive WrEv where
  | werr (e : Int)
  | wok (n : Nat)

/-- The `do ... while (buflen > 0)` read loop of `nsh_readfile`
(nsh_fsutils.c:236-281), one environment read-event consumed per `read()`
call.  State: `pos` is the file descriptor's offset, `ntotal` the bytes
stored so far (the C code's `bufptr - buffer`), `remaining` the free bytes
kept below the reserved NUL slot, `buf` the caller's buffer, `msgs` the
messages sent so far.  Result: `(ret, ntotal, buf, msgs)`.  An exhausted
event trace stops the loop with the current `ret` value (`ERROR`, since
`ret` only becomes `OK` at the end-of-file break); no run of interest
exhausts its trace. -/
def readLoop (file : List Int) (buflen : Nat) :
    List RdEv → Nat → Nat → Nat → (Nat → Int) → List Msg →
    Int × Nat × (Nat → Int) × List Msg
  | [], _, ntotal, _, buf, msgs => (ERROR, ntotal, buf, msgs)
  | RdEv.rerr e :: evs, pos, ntotal, remaining, buf, msgs =>
    if e ≠ EINTR then (ERROR, ntotal, buf, msgs ++ [Msg.cmdfailed "read"])
    else if buflen > 0 then readLoop file buflen evs pos ntotal remaining buf msgs
    else (ERROR, ntotal, buf, msgs)
  | RdEv.rok k :: evs, pos, ntotal, remaining, buf, msgs =>
    let nread := min (k + 1) (min remaining (file.length - pos))
    if nread = 0 then (OK, ntotal, buf, msgs)
    else
      let buf1 := fun i =>
        if ntotal ≤ i ∧ i < ntotal + nread then file.getD (pos + (i - ntotal)) 0 else buf i
      let ntotal1 := ntotal + nread
      let buf2 := fun i => if i = ntotal1 then 0 else buf1 i
      if buflen > 0 then
        readLoop file buflen evs (pos + nread) ntotal1 (remaining - nread) buf2 msgs
      else (ERROR, ntotal1, buf2, msgs)

/-- Embedding of `nsh_readfile()` (nsh_fsutils.c:206-287).  `file` is the
byte content behind `filepath`, `evs` the trace of read results the
operating system produces, `openok` whether `open()` succeeds, `buf0` the
caller's buffer as passed in.  The result is `(ret, ntotal, buffer,
messages)` (`ntotal` is exposed so the theorems can name the terminator's
index). -/
def nsh_readfile (file : List Int) (evs : List RdEv) (openok : Bool) (buflen : Nat)
    (buf0 : Nat → Int) : Int × Nat × (Nat → Int) × List Msg :=
  if ¬openok then (ERROR, 0, buf0, [Msg.cmdfailed "open"])
  else
    readLoop file buflen evs 0 0 (buflen - 1) (fun i => if i = 0 then 0 else buf0 i) []

/-- The `while (nbyteswritten < nbytesread)` output loop of `nsh_catfile`
(nsh_fsutils.c:131-158), one environment write-event consumed per
`nsh_write` call; `chunk` is the buffer contents being written (the C
code passes the buffer start and the full `nbytesread` on every call).
State: `nbw` is `nbyteswritten`, `out` the bytes transferred to the stream
so far, `reqs` the trace of byte strings requested from `nsh_write`,
`msgs` as before.  Result: `(no-error?, remaining write events, out, reqs,
msgs)`.  An exhausted event trace aborts as a write failure; no run of
interest exhausts its trace. -/
def catWriteLoop (chunk : List Int) :
    List WrEv → Int → List Int → List (List Int) → List Msg →
    Bool × List WrEv × List Int × List (List Int) × List Msg
  | [], nbw, out, reqs, msgs =>
    if nbw < (chunk.length : Int) then (false, [], out, reqs, msgs)
    else (true, [], out, reqs, msgs)
  | WrEv.werr e :: wevs, nbw, out, reqs, msgs =>
    if nbw < (chunk.length : Int) then
      (false, wevs, out, reqs ++ [chunk],
       msgs ++ [if e = EINTR then Msg.signalrecvd else Msg.cmdfailed "write"])
    else (true, WrEv.werr e :: wevs, out, reqs, msgs)
  | WrEv.wok n :: wevs, nbw, out, reqs, msgs =>
    if nbw < (chunk.length : Int) then
      catWriteLoop chunk wevs (nbw + n) (out ++ chunk.take n) (reqs ++ [chunk]) msgs
    else (true, WrEv.wok n :: wevs, out, reqs, msgs)

/-- The outer `for (;;)` read loop of `nsh_catfile`
(nsh_fsutils.c:98-167): each iteration consumes one read event; a read
error (of any kind, `EINTR` included) breaks the loop with `ERROR`; a
write failure in the inner loop sets `ret = ERROR` but the outer loop
continues reading, as in the source.  An exhausted read trace stops with
the current `ret`; no run of interest exhausts its trace. -/
def catLoop (bufsz : Nat) (file : List Int) :
    List RdEv → List WrEv → Nat → Int → List Int → List (List Int) → List Msg →
    Int × List Int × List (List Int) × List Msg
  | [], _, _, ret, out, reqs, msgs => (ret, out, reqs, msgs)
  | RdEv.rerr e :: _, _, _, _, out, reqs, msgs =>
    (ERROR, out, reqs, msgs ++ [if e = EINTR then Msg.signalrecvd else Msg.cmdfailed "read"])
  | RdEv.rok k :: revs, wevs, pos, ret, out, reqs, msgs =>
    let nread := min (k + 1) (min bufsz (file.length - pos))
    if nread = 0 then (ret, out, reqs, msgs)
    else
      let chunk := (file.drop pos).take nread
      let wres := catWriteLoop chunk wevs 0 out reqs msgs
      catLoop bufsz file revs wres.2.1 (pos + nread) (if wres.1 then ret else ERROR)
        wres.2.2.1 wres.2.2.2.1 wres.2.2.2.2

/-- Embedding of `nsh_catfile()` (nsh_fsutils.c:72-184).  `bufsz` is
`IOBUFFERSIZE` (a configuration constant, not part of the excerpt),
`openok`/`mallocok` whether `open()`/`malloc()` succeed.  Result:
`(ret, streamed bytes, nsh_write request trace, messages)`; the trailing
newline the function always prints is the final message. -/
def nsh_catfile (bufsz : Nat) (file : List Int) (revs : List RdEv) (wevs : List WrEv)
    (openok mallocok : Bool) : Int × List Int × List (List Int) × List Msg :=
  if ¬openok then (ERROR, [], [], [Msg.cmdfailed "open"])
  else if ¬mallocok then (ERROR, [], [], [Msg.cmdfailed "malloc"])
  else
    let r := catLoop bufsz file revs wevs 0 OK [] [] []
    (r.1, r.2.1, r.2.2.1, r.2.2.2 ++ [Msg.newline])


theorem readLoop_inv (file : List Int) (buflen : Nat) (hbl : 1 ≤ buflen) :
    ∀ (evs : List RdEv) (pos ntotal remaining : Nat) (buf buf0 : Nat → Int)
      (msgs : List Msg),
    pos = ntotal → ntotal + remaining = buflen - 1 → ntotal ≤ file.length →
    buf ntotal = 0 → (∀ i, i < ntotal → buf i = file.getD i 0) →
    (∀ i, ntotal < i → buf i = buf0 i) →
    (readLoop file buflen evs pos ntotal remaining buf msgs).2.2.1
        (readLoop file buflen evs pos ntotal remaining buf msgs).2.1 = 0 ∧
    (readLoop file buflen evs pos ntotal remaining buf msgs).2.1 + 1 ≤ buflen ∧
    (readLoop file buflen evs pos ntotal remaining buf msgs).2.1 ≤ file.length ∧
    (∀ i, i < (readLoop file buflen evs pos ntotal remaining buf msgs).2.1 →
      (readLoop file buflen evs pos ntotal remaining buf msgs).2.2.1 i = file.getD i 0) ∧
    (∀ i, (readLoop file buflen evs pos ntotal remaining buf msgs).2.1 < i →
      (readLoop file buflen evs pos ntotal remaining buf msgs).2.2.1 i = buf0 i) := by
  intro evs
  induction evs with
  | nil =>
    intro pos ntotal remaining buf buf0 msgs h1 h2 h3 h4 h5 h6
    have hlen : ntotal + 1 ≤ buflen := by omega
    exact ⟨h4, hlen, h3, h5, h6⟩
  | cons ev evs ih =>
    intro pos ntotal remaining buf buf0 msgs h1 h2 h3 h4 h5 h6
    have hlen : ntotal + 1 ≤ buflen := by omega
    cases ev with
    | rerr e =>
      by_cases he : e ≠ EINTR
      · rw [readLoop, if_pos he]
        exact ⟨h4, hlen, h3, h5, h6⟩
      · rw [readLoop, if_neg he, if_pos (by omega)]
        exact ih pos ntotal remaining buf buf0 msgs h1 h2 h3 h4 h5 h6
    | rok k =>
      by_cases hz : min (k + 1) (min remaining (file.length - pos)) = 0
      · rw [readLoop]
        dsimp only
        rw [if_pos hz]
        exact ⟨h4, hlen, h3, h5, h6⟩
      · rw [readLoop]
        dsimp only
        rw [if_neg hz, if_pos (by omega)]
        apply ih
        · omega
        · omega
        · omega
        · dsimp only
          rw [if_pos rfl]
        · intro i hi
          dsimp only
          rw [if_neg (by omega)]
          by_cases hid : ntotal ≤ i ∧ i < ntotal + min (k + 1) (min remaining (file.length - pos))
          · rw [if_pos hid, h1]
            congr 1
            omega
          · rw [if_neg hid]
            exact h5 i (by omega)
        · intro i hi
          dsimp only
          rw [if_neg (by omega), if_neg (by omega)]
          exact h6 i (by omega)


/-- C9: for every call of `nsh_readfile` whose `open` succeeds and whose
`buflen` is at least 1, the caller's buffer on return — success, read
failure or exhausted trace alike — holds a NUL-terminated string that is a
prefix of the file's bytes: the terminator sits at index `ntotal`, at most
`buflen - 1` data bytes were stored (`ntotal + 1 <= buflen`), the bytes
below `ntotal` are exactly the file's first `ntotal` bytes, and nothing at
an index above `ntotal` was touched (an immediate error leaves
`buffer[0] = 0` as the `ntotal = 0` instance). -/
theorem nsh_readfile_nul_terminated (file : List Int) (evs : List RdEv) (buflen : Nat)
    (buf0 : Nat → Int) (hbl : 1 ≤ buflen) :
    (nsh_readfile file evs true buflen buf0).2.2.1
        (nsh_readfile file evs true buflen buf0).2.1 = 0 ∧
    (nsh_readfile file evs true buflen buf0).2.1 + 1 ≤ buflen ∧
    (nsh_readfile file evs true buflen buf0).2.1 ≤ file.length ∧
    (∀ i, i < (nsh_readfile file evs true buflen buf0).2.1 →
      (nsh_readfile file evs true buflen buf0).2.2.1 i = file.getD i 0) ∧
    (∀ i, (nsh_readfile file evs true buflen buf0).2.1 < i →
      (nsh_readfile file evs true buflen buf0).2.2.1 i = buf0 i) := by
  have h4 : (fun i => if i = 0 then (0 : Int) else buf0 i) 0 = 0 := by
    dsimp only
    rw [if_pos rfl]
  have h5 : ∀ i, i < 0 → (fun i => if i = 0 then (0 : Int) else buf0 i) i = file.getD i 0 :=
    fun i hi => absurd hi (Nat.not_lt_zero i)
  have h6 : ∀ i, 0 < i → (fun i => if i = 0 then (0 : Int) else buf0 i) i = buf0 i := by
    intro i hi
    dsimp only
    rw [if_neg (by omega)]
  exact readLoop_inv file buflen hbl evs 0 0 (buflen - 1) _ buf0 [] rfl
    (Nat.zero_add _) (Nat.zero_le _) h4 h5 h6

/-- Witness for C9: reading the 3-byte file `[10, 20, 30]` into an 10-byte
buffer previously filled with 99, through a trace that first gets an
`EINTR`, then 2 bytes, then the rest: the call succeeds having stored
`[10, 20, 30, 0]` and buffer cell 5 still holds 99. -/
theorem nsh_readfile_nul_terminated_witness :
    (nsh_readfile [10, 20, 30] [RdEv.rerr 4, RdEv.rok 1, RdEv.rok 9, RdEv.rok 0] true 10
        (fun _ => 99)).2.2.1 1 = 20 ∧
    (nsh_readfile [10, 20, 30] [RdEv.rerr 4, RdEv.rok 1, RdEv.rok 9, RdEv.rok 0] true 10
        (fun _ => 99)).2.2.1
      (nsh_readfile [10, 20, 30] [RdEv.rerr 4, RdEv.rok 1, RdEv.rok 9, RdEv.rok 0] true 10
        (fun _ => 99)).2.1 = 0 ∧
    (nsh_readfile [10, 20, 30] [RdEv.rerr 4, RdEv.rok 1, RdEv.rok 9, RdEv.rok 0] true 10
        (fun _ => 99)).2.2.1 5 = 99 := by
  have h := nsh_readfile_nul_terminated [10, 20, 30]
    [RdEv.rerr 4, RdEv.rok 1, RdEv.rok 9, RdEv.rok 0] 10 (fun _ => 99) (by decide)
  refine ⟨?_, h.1, ?_⟩
  · have h1 := h.2.2.2.1 1 (by decide)
    have e : List.getD [10, 20, 30] 1 0 = (20 : Int) := by decide
    exact h1.trans e
  · exact h.2.2.2.2 5 (by decide)



theorem readLoop_eintr_elim (file : List Int) (buflen : Nat) (hbl : 1 ≤ buflen) :
    ∀ (evs1 evs2 : List RdEv) (pos ntotal remaining : Nat) (buf : Nat → Int)
      (msgs : List Msg),
    readLoop file buflen (evs1 ++ RdEv.rerr EINTR :: evs2) pos ntotal remaining buf msgs =
      readLoop file buflen (evs1 ++ evs2) pos ntotal remaining buf msgs := by
  intro evs1
  induction evs1 with
  | nil =>
    intro evs2 pos ntotal remaining buf msgs
    rw [List.nil_append, List.nil_append, readLoop, if_neg (by simp), if_pos (by omega)]
  | cons ev evs1 ih =>
    intro evs2 pos ntotal remaining buf msgs
    cases ev with
    | rerr e =>
      by_cases he : e ≠ EINTR
      · simp only [List.cons_append, readLoop, if_pos he]
      · simp only [List.cons_append, readLoop, if_neg he,
          if_pos (show buflen > 0 by omega)]
        exact ih evs2 pos ntotal remaining buf msgs
    | rok k =>
      by_cases hz : min (k + 1) (min remaining (file.length - pos)) = 0
      · simp only [List.cons_append, readLoop]
        rw [if_pos hz, if_pos hz]
      · simp only [List.cons_append, readLoop]
        rw [if_neg hz, if_pos (show buflen > 0 by omega), if_neg hz,
          if_pos (show buflen > 0 by omega)]
        exact ih evs2 _ _ _ _ msgs

/-- C8 counterexample: `nsh_catfile` does not retry a read interrupted by
a signal.  With the 1-byte file `[65]` and a trace whose first read fails
with `EINTR`, the dump returns failure having streamed nothing, while the
same call without the interruption succeeds and streams the byte — so the
interruption was not transparent and the operation did not resume. -/
theorem nsh_catfile_eintr_stops :
    (nsh_catfile 16 [65] [RdEv.rerr EINTR, RdEv.rok 0] [WrEv.wok 16] true true).1 = ERROR ∧
    (nsh_catfile 16 [65] [RdEv.rerr EINTR, RdEv.rok 0] [WrEv.wok 16] true true).2.1 = [] ∧
    (nsh_catfile 16 [65] [RdEv.rok 0, RdEv.rok 0] [WrEv.wok 16] true true).1 = OK ∧
    (nsh_catfile 16 [65] [RdEv.rok 0, RdEv.rok 0] [WrEv.wok 16] true true).2.1 = [65] := by
  refine ⟨by decide, by decide, by decide, by decide⟩

/-- C8 as amended: `nsh_readfile` retries transparently on `EINTR` (a trace
with an `EINTR` read anywhere gives the very same result as the trace
without it) and aborts on any other read error reporting "read", and on
open failure reporting "open".  `nsh_catfile` does not retry: a read
returning `EINTR` stops the dump with failure, reported as a
received-signal event; any other read error stops it reporting "read"; an
open failure reports "open"; and a non-`EINTR` write error is reported as
"write" and abandons the current chunk while the outer read loop continues
to the end of the file, failure being returned at the end (last conjunct,
on a concrete 1-byte run: the failed chunk was requested, nothing was
streamed, and the function returns failure after reaching end of file). -/
theorem file_helpers_eintr_policy :
    (∀ (file : List Int) (buflen : Nat), 1 ≤ buflen →
      ∀ (evs1 evs2 : List RdEv) (buf0 : Nat → Int),
      nsh_readfile file (evs1 ++ RdEv.rerr EINTR :: evs2) true buflen buf0 =
        nsh_readfile file (evs1 ++ evs2) true buflen buf0) ∧
    (∀ (file : List Int) (buflen : Nat) (e : Int), e ≠ EINTR →
      ∀ (evs : List RdEv) (buf0 : Nat → Int),
      (nsh_readfile file (RdEv.rerr e :: evs) true buflen buf0).1 = ERROR ∧
      (nsh_readfile file (RdEv.rerr e :: evs) true buflen buf0).2.2.2 =
        [Msg.cmdfailed "read"]) ∧
    (∀ (file : List Int) (evs : List RdEv) (buflen : Nat) (buf0 : Nat → Int),
      nsh_readfile file evs false buflen buf0 = (ERROR, 0, buf0, [Msg.cmdfailed "open"])) ∧
    (∀ (bufsz : Nat) (file : List Int) (revs : List RdEv) (wevs : List WrEv),
      nsh_catfile bufsz file (RdEv.rerr EINTR :: revs) wevs true true =
        (ERROR, [], [], [Msg.signalrecvd, Msg.newline])) ∧
    (∀ (bufsz : Nat) (file : List Int) (e : Int), e ≠ EINTR →
      ∀ (revs : List RdEv) (wevs : List WrEv),
      nsh_catfile bufsz file (RdEv.rerr e :: revs) wevs true true =
        (ERROR, [], [], [Msg.cmdfailed "read", Msg.newline])) ∧
    (∀ (bufsz : Nat) (file : List Int) (revs : List RdEv) (wevs : List WrEv) (mok : Bool),
      nsh_catfile bufsz file revs wevs false mok =
        (ERROR, [], [], [Msg.cmdfailed "open"])) ∧
    ((nsh_catfile 16 [65] [RdEv.rok 9, RdEv.rok 0] [WrEv.werr 5] true true).1 = ERROR ∧
     (nsh_catfile 16 [65] [RdEv.rok 9, RdEv.rok 0] [WrEv.werr 5] true true).2.1 = [] ∧
     (nsh_catfile 16 [65] [RdEv.rok 9, RdEv.rok 0] [WrEv.werr 5] true true).2.2.1 = [[65]] ∧
     (nsh_catfile 16 [65] [RdEv.rok 9, RdEv.rok 0] [WrEv.werr 5] true true).2.2.2 =
       [Msg.cmdfailed "write", Msg.newline]) := by
  refine ⟨?_, ?_, ?_, ?_, ?_, ?_, by decide, by decide, by decide, by decide⟩
  · intro file buflen hbl evs1 evs2 buf0
    simp only [nsh_readfile]
    rw [readLoop_eintr_elim file buflen hbl]
  · intro file buflen e he evs buf0
    simp only [nsh_readfile, readLoop, if_pos he]
    exact ⟨rfl, by simp⟩
  · intro file evs buflen buf0
    simp [nsh_readfile]
  · intro bufsz file revs wevs
    simp [nsh_catfile, catLoop]
  · intro bufsz file e he revs wevs
    simp [nsh_catfile, catLoop, he]
  · intro bufsz file revs wevs mok
    simp [nsh_catfile]

/-- Witness for the amended C8: a concrete `EINTR` in `nsh_readfile`'s
trace is invisible in the result; a concrete failed read reports "read"
and fails. -/
theorem file_helpers_eintr_policy_witness :
    nsh_readfile [10, 20] [RdEv.rerr EINTR, RdEv.rok 9, RdEv.rok 0] true 8 (fun _ => 99) =
      nsh_readfile [10, 20] [RdEv.rok 9, RdEv.rok 0] true 8 (fun _ => 99) ∧
    (nsh_readfile [10, 20] [RdEv.rerr 5] true 8 (fun _ => 99)).1 = ERROR ∧
    nsh_catfile 16 [65] [RdEv.rerr 5] [] true true =
      (ERROR, [], [], [Msg.cmdfailed "read", Msg.newline]) := by
  refine ⟨?_, ?_, ?_⟩
  · exact file_helpers_eintr_policy.1 [10, 20] 8 (by decide) [] [RdEv.rok 9, RdEv.rok 0]
      (fun _ => 99)
  · exact (file_helpers_eintr_policy.2.1 [10, 20] 8 5 (by decide) [] (fun _ => 99)).1
  · exact file_helpers_eintr_policy.2.2.2.2.1 16 [65] 5 (by decide) [] []



theorem catWriteLoop_full (chunk : List Int) (hlen : 0 < chunk.length) (n : Nat)
    (wevs : List WrEv) (out : List Int) (reqs : List (List Int)) (msgs : List Msg)
    (hn : chunk.length ≤ n) :
    catWriteLoop chunk (WrEv.wok n :: wevs) 0 out reqs msgs =
      (true, wevs, out ++ chunk, reqs ++ [chunk], msgs) := by
  rw [catWriteLoop, if_pos (by exact_mod_cast hlen)]
  have htake : chunk.take n = chunk := List.take_of_length_le hn
  have hstop : ¬((0 : Int) + n < (chunk.length : Int)) := by
    push_neg
    omega
  cases wevs with
  | nil => rw [catWriteLoop, if_neg hstop, htake]
  | cons ev rest =>
    cases ev with
    | werr e => rw [catWriteLoop, if_neg hstop, htake]
    | wok m => rw [catWriteLoop, if_neg hstop, htake]

theorem catLoop_full (bufsz : Nat) (file : List Int) (hb : 1 ≤ bufsz) :
    ∀ (revs : List RdEv) (wevs : List WrEv) (pos : Nat) (ret : Int) (out : List Int)
      (reqs : List (List Int)) (msgs : List Msg),
    (∀ e ∈ revs, ∃ k, e = RdEv.rok k) →
    (∀ e ∈ wevs, ∃ n, e = WrEv.wok n ∧ bufsz ≤ n) →
    pos ≤ file.length →
    file.length - pos + 1 ≤ revs.length →
    file.length - pos ≤ wevs.length →
    (catLoop bufsz file revs wevs pos ret out reqs msgs).1 = ret ∧
    (catLoop bufsz file revs wevs pos ret out reqs msgs).2.1 = out ++ file.drop pos ∧
    (catLoop bufsz file revs wevs pos ret out reqs msgs).2.2.2 = msgs := by
  intro revs
  induction revs with
  | nil =>
    intro wevs pos ret out reqs msgs hrev hwev hpos hrl hwl
    simp only [List.length_nil] at hrl
    omega
  | cons ev revs ih =>
    intro wevs pos ret out reqs msgs hrev hwev hpos hrl hwl
    obtain ⟨k, rfl⟩ := hrev ev (List.mem_cons_self ev revs)
    by_cases hend : pos = file.length
    · subst hend
      have hz : min (k + 1) (min bufsz (file.length - file.length)) = 0 := by omega
      rw [catLoop]
      dsimp only
      rw [if_pos hz]
      refine ⟨rfl, ?_, rfl⟩
      rw [List.drop_length, List.append_nil]
    · have hlt : pos < file.length := by omega
      have hz : ¬min (k + 1) (min bufsz (file.length - pos)) = 0 := by omega
      rw [catLoop]
      dsimp only
      rw [if_neg hz]
      obtain ⟨w, wevs', rfl⟩ : ∃ w wevs', wevs = w :: wevs' := by
        cases wevs with
        | nil =>
          simp only [List.length_nil] at hwl
          omega
        | cons w wevs' => exact ⟨w, wevs', rfl⟩
      obtain ⟨n, rfl, hn⟩ := hwev w (List.mem_cons_self w wevs')
      set nread := min (k + 1) (min bufsz (file.length - pos)) with hnr
      have hchunklen : ((file.drop pos).take nread).length = nread := by
        rw [List.length_take, List.length_drop]
        omega
      rw [catWriteLoop_full _ (by omega) n wevs' out reqs msgs (by omega)]
      dsimp only
      have hres := ih wevs' (pos + nread) (if true = true then ret else ERROR)
        (out ++ (file.drop pos).take nread) (reqs ++ [(file.drop pos).take nread]) msgs
        (fun e he => hrev e (List.mem_cons_of_mem _ he))
        (fun e he => hwev e (List.mem_cons_of_mem _ he))
        (by omega)
        (by simp only [List.length_cons] at hrl; omega)
        (by simp only [List.length_cons] at hwl; omega)
      refine ⟨hres.1.trans (by simp), ?_, hres.2.2⟩
      rw [hres.2.1, List.append_assoc, List.drop_take_append_drop]


/-- C10: `nsh_catfile`'s output loop re-issues the whole current chunk on a
partial write.  First conjunct: when every `nsh_write` transfers the entire
requested length (and reads are clean), the streamed output equals the
file's contents exactly.  Remaining conjuncts, on the concrete 2-byte file
`[7, 9]` where the first write transfers only 1 byte: the follow-up call
requests the original buffer start with the original full length again
(the request trace is the same full chunk twice), so the streamed output
duplicates the first byte (`[7, 7, 9]` instead of `[7, 9]`). -/
theorem nsh_catfile_write_chunk_restart :
    (∀ (bufsz : Nat) (file : List Int) (revs : List RdEv) (wevs : List WrEv),
      1 ≤ bufsz →
      (∀ e ∈ revs, ∃ k, e = RdEv.rok k) →
      (∀ e ∈ wevs, ∃ n, e = WrEv.wok n ∧ bufsz ≤ n) →
      file.length + 1 ≤ revs.length →
      file.length ≤ wevs.length →
      (nsh_catfile bufsz file revs wevs true true).1 = OK ∧
      (nsh_catfile bufsz file revs wevs true true).2.1 = file) ∧
    ((nsh_catfile 16 [7, 9] [RdEv.rok 9, RdEv.rok 9] [WrEv.wok 1, WrEv.wok 2]
        true true).2.1 = [7, 7, 9] ∧
     (nsh_catfile 16 [7, 9] [RdEv.rok 9, RdEv.rok 9] [WrEv.wok 1, WrEv.wok 2]
        true true).2.2.1 = [[7, 9], [7, 9]]) := by
  refine ⟨?_, by decide, by decide⟩
  intro bufsz file revs wevs hb hrev hwev hrl hwl
  have h := catLoop_full bufsz file hb revs wevs 0 OK [] [] [] hrev hwev
    (Nat.zero_le _) (by omega) (by omega)
  have hu : nsh_catfile bufsz file revs wevs true true =
      (let r := catLoop bufsz file revs wevs 0 OK [] [] []
       (r.1, r.2.1, r.2.2.1, r.2.2.2 ++ [Msg.newline])) := rfl
  rw [hu]
  dsimp only
  exact ⟨h.1, by rw [h.2.1, List.drop_zero, List.nil_append]⟩

/-- Witness for C10: streaming the 3-byte file `[1, 2, 3]` with full-length
writes reproduces it exactly and reports success. -/
theorem nsh_catfile_write_chunk_restart_witness :
    (nsh_catfile 16 [1, 2, 3] [RdEv.rok 9, RdEv.rok 9, RdEv.rok 9, RdEv.rok 9]
        [WrEv.wok 16, WrEv.wok 16, WrEv.wok 16] true true).1 = OK ∧
    (nsh_catfile 16 [1, 2, 3] [RdEv.rok 9, RdEv.rok 9, RdEv.rok 9, RdEv.rok 9]
        [WrEv.wok 16, WrEv.wok 16, WrEv.wok 16] true true).2.1 = [1, 2, 3] := by
  have hrev : ∀ e ∈ [RdEv.rok 9, RdEv.rok 9, RdEv.rok 9, RdEv.rok 9], ∃ k,
      e = RdEv.rok k := by
    intro e he
    simp only [List.mem_cons, List.not_mem_nil, or_false] at he
    rcases he with rfl | rfl | rfl | rfl <;> exact ⟨9, rfl⟩
  have hwev : ∀ e ∈ [WrEv.wok 16, WrEv.wok 16, WrEv.wok 16], ∃ n,
      e = WrEv.wok n ∧ 16 ≤ n := by
    intro e he
    simp only [List.mem_cons, List.not_mem_nil, or_false] at he
    rcases he with rfl | rfl | rfl <;> exact ⟨16, rfl, le_refl 16⟩
  exact nsh_catfile_write_chunk_restart.1 16 [1, 2, 3]
    [RdEv.rok 9, RdEv.rok 9, RdEv.rok 9, RdEv.rok 9]
    [WrEv.wok 16, WrEv.wok 16, WrEv.wok 16] (by decide) hrev hwev (by decide) (by decide)


end Nsh
